import Mathlib

/-
Verification of the compact-filter UTXO discovery and spend-tracking engine
of the neutrino-api repository (Go).

The development shallowly embeds the two scanning pipelines of the
`internal/neutrino` package:

* `RescanManager.WatchAddress`, `GetUTXOs`, `Rescan` and `scanBlocks`
  (rescan.go), with the in-memory UTXO ledger `utxoSet : map[string]UTXO`
  keyed by the string `"txid:vout"`;
* `Node.GetUTXO` (node.go), the single-outpoint point lookup with its
  early-termination loop and `UTXOSpendReport` construction.

The block/filter source (`ChainService`) is modelled as an environment of
oracle functions (`getBlockHash`, `getCFilter`, `getBlock`, `bestBlock`),
and the GCS filter as an abstract match oracle, mirroring how the code
only observes those collaborators through their results.  Go maps are
modelled as association lists with overwrite-insert; iteration-order
independence of the facts proved is established through lookup-based
statements.  Fetch requests issued to the chain source are reified as an
explicit event trace so that claims about "no network interaction" and
"early termination" are expressible.
-/

namespace NeutrinoAPI

/-! ## Data model (node.go / rescan.go structs and wire types) -/

/-- A transaction output: value in satoshis plus its pkScript.
Scripts are represented throughout by their hex encoding, exactly the
form `scanBlocks` compares (`hex.EncodeToString(txOut.PkScript)`). -/
structure TxOut where
  value : Int
  pkScript : String
deriving Repr, DecidableEq

/-- An outpoint: the (transaction id, output index) pair referenced by a
transaction input (`txIn.PreviousOutPoint`). -/
structure OutPoint where
  txid : String
  index : Nat
deriving Repr, DecidableEq

/-- A transaction: id, ordered inputs (as referenced outpoints), ordered
outputs. -/
structure Tx where
  txid : String
  inputs : List OutPoint
  outputs : List TxOut
deriving Repr, DecidableEq

/-- A block: its ordered transaction list. -/
structure Block where
  txs : List Tx
deriving Repr, DecidableEq

/-- The `UTXO` struct of node.go. -/
structure UTXO where
  TxID : String
  Vout : Nat
  Value : Int
  Address : String
  ScriptPubKey : String
  Height : Int
deriving Repr, DecidableEq

/-- The ledger key `fmt.Sprintf("%s:%d", txid, vout)` used for
`utxoSet`, `spentOutputs` and `foundUTXOs` in rescan.go. -/
def utxoKey (txid : String) (vout : Nat) : String :=
  txid ++ ":" ++ toString vout

/-- A GCS filter, abstracted to its observable match behaviour:
`matchAnyRes` models `filter.MatchAny(key, scripts)` and `matchRes`
models `filter.Match(key, pkScript)`; `none` models the error return. -/
structure Filter where
  matchAnyRes : List String → Option Bool
  matchRes : String → Option Bool

/-- The environment of collaborators: address decoding
(`btcutil.DecodeAddress` success), script construction
(`txscript.PayToAddrScript`), txid parsing (`chainhash.NewHashFromStr`),
and the chain service oracles.  `getCFilter` collapses the error return
and the `nil` filter, which rescan.go / node.go treat identically
(both skip the height). -/
structure Env where
  decodeOk : String → Bool
  payScript : String → Option String
  parseTxid : String → Option String
  bestBlock : Option Int
  getBlockHash : Int → Option String
  getCFilter : String → Option Filter
  getBlock : String → Option Block

/-- A fetch request issued to the chain source, reified for trace-based
claims ("no network interaction", "no later height is scanned"). -/
inductive FetchEvent where
  | hashReq (height : Int)
  | filterReq (blockHash : String)
  | blockReq (blockHash : String)
deriving Repr, DecidableEq

/-- The inclusive ascending height range of the Go loop
`for height := startH; height <= endH; height++`. -/
def heightRange (startH endH : Int) : List Int :=
  (List.range (endH + 1 - startH).toNat).map (fun i => startH + i)

/-! ## Association-list maps (Go `map[string]V` as observed via lookup) -/

/-- First-match lookup, the read semantics of a Go map. -/
def lookupA {α : Type} : List (String × α) → String → Option α
  | [], _ => none
  | kv :: rest, k => if kv.1 = k then some kv.2 else lookupA rest k

/-- Overwrite-insert, the write semantics of `m[k] = v`. -/
def insertA {α : Type} : List (String × α) → String → α → List (String × α)
  | [], k, v => [(k, v)]
  | kv :: rest, k, v => if kv.1 = k then (k, v) :: rest else kv :: insertA rest k v

/-- Key removal, the semantics of `delete(m, k)`. -/
def eraseA {α : Type} : List (String × α) → String → List (String × α)
  | [], _ => []
  | kv :: rest, k => if kv.1 = k then eraseA rest k else kv :: eraseA rest k

/-! ## UTXO ledger update and query (rescan.go) -/

/-- The insertion phase of the ledger update (rescan.go lines 234-239):
every found UTXO is written unless its key is in the spent set. -/
def insFold (found : List (String × UTXO)) (spent : List String)
    (led : List (String × UTXO)) : List (String × UTXO) :=
  found.foldl (fun l kv => if kv.1 ∈ spent then l else insertA l kv.1 kv.2) led

/-- The deletion phase of the ledger update (rescan.go lines 241-244):
every spent key is deleted. -/
def eraseAll (spent : List String) (led : List (String × UTXO)) :
    List (String × UTXO) :=
  spent.foldl (fun l k => eraseA l k) led

/-- The full ledger update performed under the write lock at the end of
`scanBlocks`: insert unspent creations, then delete every spent key. -/
def applyScan (found : List (String × UTXO)) (spent : List String)
    (led : List (String × UTXO)) : List (String × UTXO) :=
  eraseAll spent (insFold found spent led)

/-- The address-filtered read of the ledger performed by `GetUTXOs`
(rescan.go lines 81-91): all stored values whose `Address` is in the
requested set. -/
def queryLedger (led : List (String × UTXO)) (addrs : List String) : List UTXO :=
  (led.map (fun kv => kv.2)).filter (fun u => addrs.contains u.Address)

/-- Well-formedness of the ledger representation: every entry is stored
under the key derived from its own outpoint, the invariant every writer
in rescan.go maintains (`foundUTXOs[utxoKey] = utxo` with matching
fields, and `AddUTXO`). -/
def WFLedger (led : List (String × UTXO)) : Prop :=
  ∀ kv ∈ led, kv.1 = utxoKey kv.2.TxID kv.2.Vout

/-! ## Block scanner (rescan.go `scanBlocks`) -/

/-- Accumulated scan result: the `spentOutputs` set and the
`foundUTXOs` map of `scanBlocks`. -/
structure ScanAcc where
  spent : List String
  found : List (String × UTXO)
deriving Repr, DecidableEq

/-- Processing of one transaction inside a matched block
(rescan.go lines 200-227): every input marks its referenced outpoint
spent unconditionally; every output whose script is one of the watched
scripts records a new UTXO tagged with this block's height. -/
def scanTx (s2a : List (String × String)) (h : Int) (acc : ScanAcc) (tx : Tx) :
    ScanAcc :=
  let acc1 : ScanAcc :=
    { acc with spent :=
        tx.inputs.foldl (fun sp o => utxoKey o.txid o.index :: sp) acc.spent }
  { acc1 with found :=
      tx.outputs.enum.foldl (fun fd p =>
        match lookupA s2a p.2.pkScript with
        | some addrStr =>
            insertA fd (utxoKey tx.txid p.1)
              { TxID := tx.txid, Vout := p.1, Value := p.2.value,
                Address := addrStr, ScriptPubKey := p.2.pkScript, Height := h }
        | none => fd) acc1.found }

/-- One height of the scan loop (rescan.go lines 159-228), with its
fetch trace: resolve the block hash, fetch the filter, run the
multi-script match, and on a match fetch and scan the full block.
Every failure is a skip that leaves the accumulator unchanged. -/
def scanHeightT (env : Env) (scripts : List String)
    (s2a : List (String × String)) (acc : ScanAcc) (h : Int) :
    ScanAcc × List FetchEvent :=
  match env.getBlockHash h with
  | none => (acc, [.hashReq h])
  | some bh =>
    match env.getCFilter bh with
    | none => (acc, [.hashReq h, .filterReq bh])
    | some f =>
      match f.matchAnyRes scripts with
      | none => (acc, [.hashReq h, .filterReq bh])
      | some false => (acc, [.hashReq h, .filterReq bh])
      | some true =>
        match env.getBlock bh with
        | none => (acc, [.hashReq h, .filterReq bh, .blockReq bh])
        | some b =>
            (b.txs.foldl (scanTx s2a h) acc,
             [.hashReq h, .filterReq bh, .blockReq bh])

/-- The scan loop over a list of heights, threading the accumulator and
concatenating the fetch traces. -/
def scanHeightsT (env : Env) (scripts : List String)
    (s2a : List (String × String)) : ScanAcc → List Int → ScanAcc × List FetchEvent
  | acc, [] => (acc, [])
  | acc, h :: rest =>
    let p := scanHeightT env scripts s2a acc h
    let q := scanHeightsT env scripts s2a p.1 rest
    (q.1, p.2 ++ q.2)

/-- The scan accumulator produced by a scan over the given heights,
starting from the empty accumulator as `scanBlocks` does. -/
def scanResult (env : Env) (scripts : List String)
    (s2a : List (String × String)) (hs : List Int) : ScanAcc :=
  (scanHeightsT env scripts s2a ⟨[], []⟩ hs).1

/-- Script preparation of `scanBlocks` (rescan.go lines 137-148): build
the watched-script list and the script-to-address map, silently skipping
addresses whose script construction fails. -/
def buildScripts (env : Env) (addrs : List String) :
    List String × List (String × String) :=
  addrs.foldl (fun acc a =>
    match env.payScript a with
    | none => acc
    | some s => (acc.1 ++ [s], insertA acc.2 s a)) ([], [])

/-! ## Rescan manager state and entry points (rescan.go) -/

/-- The mutable state of `RescanManager`: the watch list (keyed by the
address string) and the UTXO ledger. -/
structure RescanState where
  watched : List String
  utxoSet : List (String × UTXO)
deriving Repr, DecidableEq

/-- Errors surfaced by the rescan manager's entry points. -/
inductive RescanError where
  | invalidAddress (addr : String)
  | noScripts
  | bestBlockFailed
deriving Repr, DecidableEq

/-- `RescanManager.WatchAddress` (rescan.go lines 45-61): a duplicate is
accepted silently; otherwise the address must decode, else the watch
list is left unchanged and the invalid-address error is returned. -/
def WatchAddress (env : Env) (st : RescanState) (a : String) :
    Except RescanError RescanState :=
  if a ∈ st.watched then .ok st
  else if env.decodeOk a then .ok { st with watched := a :: st.watched }
  else .error (.invalidAddress a)

/-- The registration loop shared by `GetUTXOs` and `Rescan`
(rescan.go lines 70-75 and 105-114): register each address in order,
returning at the first failure with the registrations made so far kept. -/
def registerAll (env : Env) : RescanState → List String →
    (Except RescanError Unit) × RescanState
  | st, [] => (.ok (), st)
  | st, a :: rest =>
    match WatchAddress env st a with
    | .error e => (.error e, st)
    | .ok st1 => registerAll env st1 rest

/-- `RescanManager.GetUTXOs` (rescan.go lines 65-95): register every
address (failing fast on an invalid one), then return the stored UTXOs
whose owning address is in the requested set. -/
def GetUTXOs (env : Env) (st : RescanState) (addrs : List String) :
    (Except RescanError (List UTXO)) × RescanState :=
  match registerAll env st addrs with
  | (.error e, st1) => (.error e, st1)
  | (.ok _, st1) => (.ok (queryLedger st1.utxoSet addrs), st1)

/-- `RescanManager.scanBlocks` (rescan.go lines 134-248): build scripts,
reject an empty script set before scanning any height, otherwise scan
the whole range and apply the accumulated result to the ledger as one
update. -/
def scanBlocks (env : Env) (st : RescanState) (startH endH : Int)
    (addrs : List String) :
    (Except RescanError Unit) × RescanState × List FetchEvent :=
  let bs := buildScripts env addrs
  if bs.1 = [] then (.error .noScripts, st, [])
  else
    let p := scanHeightsT env bs.1 bs.2 ⟨[], []⟩ (heightRange startH endH)
    (.ok (), { st with utxoSet := applyScan p.1.found p.1.spent st.utxoSet }, p.2)

/-- `RescanManager.Rescan` (rescan.go lines 99-131): register the
addresses, return success immediately when the address list is empty,
then resolve the chain tip and scan from `startH` to it. -/
def Rescan (env : Env) (st : RescanState) (startH : Int) (addrs : List String) :
    (Except RescanError Unit) × RescanState × List FetchEvent :=
  match registerAll env st addrs with
  | (.error e, st1) => (.error e, st1, [])
  | (.ok _, st1) =>
    if addrs = [] then (.ok (), st1, [])
    else
      match env.bestBlock with
      | none => (.error .bestBlockFailed, st1, [])
      | some tip => scanBlocks env st1 startH tip addrs

/-! ## Point lookup (node.go `GetUTXO`) -/

/-- The `UTXOSpendReport` struct of node.go, with Go zero values as
field defaults (unset fields keep their zero value and are omitted from
the JSON encoding). -/
structure UTXOSpendReport where
  unspent : Bool := false
  value : Int := 0
  scriptPubKey : String := ""
  spendingTxID : String := ""
  spendingInput : Nat := 0
  spendingHeight : Int := 0
deriving Repr, DecidableEq

/-- Errors surfaced by `GetUTXO`.  `notFound` carries the message
string of the Go error. -/
inductive LookupError where
  | missingAddress
  | invalidAddress
  | scriptFailed
  | invalidTxid
  | bestBlockFailed
  | notFound (msg : String)
deriving Repr, DecidableEq

/-- The not-found message of node.go line 641, hinting that
`start_height` may be after the creating block. -/
def notFoundHint : String :=
  "UTXO not found: ensure start_height is at or before the block containing the transaction"

/-- The loop state of `GetUTXO`: the captured outputs of the creating
transaction (`foundTx`, `nil` until creation is found), its height, and
the captured spending fields (`spendingTxHash` empty until a spend is
found). -/
structure LookupState where
  foundOuts : Option (List TxOut) := none
  foundHeight : Int := 0
  spendingTx : String := ""
  spendingInput : Nat := 0
  spendingHeight : Int := 0
deriving Repr, DecidableEq

/-- The early-exit condition of node.go line 634:
`foundTx != nil && spendingTxHash != ""`. -/
def bothFound (st : LookupState) : Bool :=
  st.foundOuts.isSome && st.spendingTx != ""

/-- Processing of one transaction in a matched block
(node.go lines 604-631): capture creation when the hash matches the
target and the vout is a valid output index; once creation is captured
(possibly by this same transaction), capture the first input of this
transaction referencing the target outpoint as the spend. -/
def lookupTx (target : String) (vout : Nat) (h : Int) (st : LookupState)
    (tx : Tx) : LookupState :=
  let st1 :=
    if st.foundOuts = none ∧ tx.txid = target ∧ vout < tx.outputs.length then
      { st with foundOuts := some tx.outputs, foundHeight := h }
    else st
  if st1.foundOuts.isSome then
    match tx.inputs.findIdx? (fun o => o.txid == target && o.index == vout) with
    | some idx =>
        { st1 with spendingTx := tx.txid, spendingInput := idx,
                   spendingHeight := h }
    | none => st1
  else st1

/-- One height of the lookup loop (node.go lines 563-631), with its
fetch trace; single-script filter match, per-height failures skip. -/
def lookupHeightT (env : Env) (pk target : String) (vout : Nat)
    (st : LookupState) (h : Int) : LookupState × List FetchEvent :=
  match env.getBlockHash h with
  | none => (st, [.hashReq h])
  | some bh =>
    match env.getCFilter bh with
    | none => (st, [.hashReq h, .filterReq bh])
    | some f =>
      match f.matchRes pk with
      | none => (st, [.hashReq h, .filterReq bh])
      | some false => (st, [.hashReq h, .filterReq bh])
      | some true =>
        match env.getBlock bh with
        | none => (st, [.hashReq h, .filterReq bh, .blockReq bh])
        | some b =>
            (b.txs.foldl (lookupTx target vout h) st,
             [.hashReq h, .filterReq bh, .blockReq bh])

/-- The lookup loop with the early-exit check after each height
(node.go lines 633-637): stop as soon as both creation and spend are
found. -/
def lookupLoop (env : Env) (pk target : String) (vout : Nat) :
    LookupState → List Int → LookupState × List FetchEvent
  | st, [] => (st, [])
  | st, h :: rest =>
    let p := lookupHeightT env pk target vout st h
    if bothFound p.1 then (p.1, p.2)
    else
      let q := lookupLoop env pk target vout p.1 rest
      (q.1, p.2 ++ q.2)

/-- The lookup loop without the early exit: the plain fold of the
per-height step, used to state when the early-exit condition holds. -/
def lookupRun (env : Env) (pk target : String) (vout : Nat) :
    LookupState → List Int → LookupState
  | st, [] => st
  | st, h :: rest =>
      lookupRun env pk target vout (lookupHeightT env pk target vout st h).1 rest

/-- The scan phase of `GetUTXO` over the requested range, from the
zero-initialized loop state. -/
def lookupScan (env : Env) (pk target : String) (vout : Nat)
    (startH tip : Int) : LookupState × List FetchEvent :=
  lookupLoop env pk target vout {} (heightRange startH tip)

/-- Result construction of `GetUTXO` (node.go lines 639-658): creation
never found fails with the not-found hint; a found spend reports the
spending fields only; otherwise the value and script observed at
creation are reported. -/
def buildReport (vout : Nat) (st : LookupState) :
    Except LookupError UTXOSpendReport :=
  match st.foundOuts with
  | none => .error (.notFound notFoundHint)
  | some outs =>
    if st.spendingTx = "" then
      let txOut := outs.getD vout { value := 0, pkScript := "" }
      .ok { unspent := true, value := txOut.value,
            scriptPubKey := txOut.pkScript }
    else
      .ok { unspent := false, spendingTxID := st.spendingTx,
            spendingInput := st.spendingInput,
            spendingHeight := st.spendingHeight }

/-- `Node.GetUTXO` (node.go lines 519-662) with its fetch trace: the
empty-address guard precedes every chain interaction; then address
decode, script construction, txid parse, best-block resolution, the
scan loop, and report construction. -/
def GetUTXOTrace (env : Env) (txid : String) (vout : Nat) (address : String)
    (startH : Int) : (Except LookupError UTXOSpendReport) × List FetchEvent :=
  if address = "" then (.error .missingAddress, [])
  else if env.decodeOk address then
    match env.payScript address with
    | none => (.error .scriptFailed, [])
    | some pk =>
      match env.parseTxid txid with
      | none => (.error .invalidTxid, [])
      | some target =>
        match env.bestBlock with
        | none => (.error .bestBlockFailed, [])
        | some tip =>
          let p := lookupScan env pk target vout startH tip
          (buildReport vout p.1, p.2)
  else (.error .invalidAddress, [])

/-- The result component of `GetUTXO`. -/
def GetUTXO (env : Env) (txid : String) (vout : Nat) (address : String)
    (startH : Int) : Except LookupError UTXOSpendReport :=
  (GetUTXOTrace env txid vout address startH).1

/-- The per-height failure conditions of §7 of the spec: block hash
unavailable, filter unavailable or absent, filter match error, or full
block fetch failure after a match. -/
def heightSkips (env : Env) (scripts : List String) (h : Int) : Prop :=
  env.getBlockHash h = none ∨
  ∃ bh, env.getBlockHash h = some bh ∧
    (env.getCFilter bh = none ∨
     ∃ f, env.getCFilter bh = some f ∧
       (f.matchAnyRes scripts = none ∨
        (f.matchAnyRes scripts = some true ∧ env.getBlock bh = none)))

/-! ## Specification helpers -/

/-- Left-biased choice on options, used to characterise lookups after
the ledger insertion fold. -/
def oOr {α : Type} : Option α → Option α → Option α
  | some v, _ => some v
  | none, b => b

/-- The binding a key receives from the insertion phase of the ledger
update: the last pair of the found list with that key and a key not in
the spent set, if any. -/
def insLast : List (String × UTXO) → List String → String → Option UTXO
  | [], _, _ => none
  | kv :: rest, sp, k =>
    match insLast rest sp k with
    | some v => some v
    | none => if kv.1 = k ∧ kv.1 ∉ sp then some kv.2 else none

/-! ## Concrete fixtures used to instantiate the theorems -/

/-- A filter that matches every query. -/
def fAll : Filter := ⟨fun _ => some true, fun _ => some true⟩

/-- Transaction `T`: no inputs, one output of value 5000 paying
script `SA`. -/
def txT : Tx := ⟨"T", [], [⟨5000, "SA"⟩]⟩

/-- Transaction `U`: spends outpoint `(T, 0)` through its input 0,
no outputs. -/
def txU : Tx := ⟨"U", [⟨"T", 0⟩], []⟩

/-- The block at height 0 of the fixture chain. -/
def blk0 : Block := ⟨[txT]⟩

/-- The block at height 2 of the fixture chain. -/
def blk2 : Block := ⟨[txU]⟩

/-- A concrete environment: addresses `A`, `B`, `C` decode; `A` and `B`
have scripts `SA` and `SB` while script construction fails for `C`; the
chain has tip 2, blocks at heights 0 and 2, and no block hash for
height 1. -/
def envW : Env :=
  { decodeOk := fun a => a == "A" || a == "B" || a == "C"
    payScript := fun a =>
      if a = "A" then some "SA" else if a = "B" then some "SB" else none
    parseTxid := fun t => some t
    bestBlock := some 2
    getBlockHash := fun h =>
      if h = 0 then some "B0" else if h = 2 then some "B2" else none
    getCFilter := fun bh =>
      if bh = "B0" then some fAll else if bh = "B2" then some fAll else none
    getBlock := fun bh =>
      if bh = "B0" then some blk0 else if bh = "B2" then some blk2 else none }

/-- A stored UTXO owned by address `A`. -/
def uX : UTXO := ⟨"X", 0, 7, "A", "SA", 0⟩

/-- A manager state already holding `uX`. -/
def stW : RescanState := ⟨[], [("X:0", uX)]⟩

/-- The empty manager state. -/
def stEmpty : RescanState := ⟨[], []⟩

/-! ## Association-list lemmas -/

theorem lookupA_insertA_self {α : Type} (l : List (String × α)) (k : String)
    (v : α) : lookupA (insertA l k v) k = some v := by
  induction l with
  | nil => simp [insertA, lookupA]
  | cons kv rest ih =>
    by_cases h : kv.1 = k
    · simp [insertA, h, lookupA]
    · simp [insertA, h, lookupA, ih]

theorem lookupA_insertA_ne {α : Type} (l : List (String × α)) (k k' : String)
    (v : α) (h : k' ≠ k) : lookupA (insertA l k' v) k = lookupA l k := by
  induction l with
  | nil => simp [insertA, lookupA, h]
  | cons kv rest ih =>
    by_cases h1 : kv.1 = k'
    · simp [insertA, h1, lookupA, h, Ne.symm h]
    · by_cases h2 : kv.1 = k
      · simp [insertA, h1, lookupA, h2, Ne.symm h]
      · simp [insertA, h1, lookupA, h2, ih]

theorem lookupA_eraseA {α : Type} (l : List (String × α)) (s k : String) :
    lookupA (eraseA l s) k = if k = s then none else lookupA l k := by
  induction l with
  | nil => simp [eraseA, lookupA]
  | cons kv rest ih =>
    by_cases h1 : kv.1 = s
    · by_cases h2 : k = s
      · subst h2; simp [eraseA, h1, ih]
      · have hne : s ≠ k := fun hc => h2 hc.symm
        simp [eraseA, h1, ih, h2, lookupA, hne]
    · by_cases h2 : kv.1 = k
      · have : ¬ k = s := by rw [← h2]; exact fun hc => h1 hc
        simp [eraseA, h1, lookupA, h2, this]
      · simp [eraseA, h1, lookupA, h2, ih]

theorem mem_insertA {α : Type} (l : List (String × α)) (k : String) (v : α)
    (kv : String × α) (h : kv ∈ insertA l k v) : kv ∈ l ∨ kv = (k, v) := by
  induction l with
  | nil => simp [insertA] at h; right; exact h
  | cons kv1 rest ih =>
    by_cases h1 : kv1.1 = k
    · simp [insertA, h1] at h
      rcases h with h | h
      · right; exact h
      · left; exact List.mem_cons_of_mem _ h
    · simp [insertA, h1] at h
      rcases h with h | h
      · left; simp [h]
      · rcases ih h with h2 | h2
        · left; exact List.mem_cons_of_mem _ h2
        · right; exact h2

theorem mem_eraseA {α : Type} (l : List (String × α)) (s : String)
    (kv : String × α) (h : kv ∈ eraseA l s) : kv ∈ l := by
  induction l with
  | nil => simp [eraseA] at h
  | cons kv1 rest ih =>
    by_cases h1 : kv1.1 = s
    · simp [eraseA, h1] at h
      exact List.mem_cons_of_mem _ (ih h)
    · simp [eraseA, h1] at h
      rcases h with h | h
      · simp [h]
      · exact List.mem_cons_of_mem _ (ih h)

theorem lookupA_eq_none {α : Type} (l : List (String × α)) (k : String) :
    lookupA l k = none ↔ ∀ kv ∈ l, kv.1 ≠ k := by
  induction l with
  | nil => simp [lookupA]
  | cons kv rest ih =>
    by_cases h : kv.1 = k
    · simp [lookupA, h, ih]
    · simp [lookupA, h, ih]

theorem lookupA_eraseAll (sp : List String) (led : List (String × UTXO))
    (k : String) :
    lookupA (eraseAll sp led) k = if k ∈ sp then none else lookupA led k := by
  induction sp generalizing led with
  | nil => simp [eraseAll]
  | cons s sp ih =>
    have hstep : eraseAll (s :: sp) led = eraseAll sp (eraseA led s) := rfl
    rw [hstep, ih, lookupA_eraseA]
    by_cases h1 : k ∈ sp <;> by_cases h2 : k = s <;> simp [h1, h2]

theorem mem_eraseAll (sp : List String) (led : List (String × UTXO))
    (kv : String × UTXO) (h : kv ∈ eraseAll sp led) : kv ∈ led := by
  induction sp generalizing led with
  | nil => exact h
  | cons s sp ih =>
    have hstep : eraseAll (s :: sp) led = eraseAll sp (eraseA led s) := rfl
    rw [hstep] at h
    exact mem_eraseA _ _ _ (ih _ h)

theorem lookupA_insFold (f : List (String × UTXO)) (sp : List String)
    (led : List (String × UTXO)) (k : String) :
    lookupA (insFold f sp led) k = oOr (insLast f sp k) (lookupA led k) := by
  induction f generalizing led with
  | nil => simp [insFold, insLast, oOr]
  | cons kv rest ih =>
    have hstep : insFold (kv :: rest) sp led
        = insFold rest sp (if kv.1 ∈ sp then led else insertA led kv.1 kv.2) := rfl
    rw [hstep, ih]
    cases hIL : insLast rest sp k with
    | some v => simp [insLast, hIL, oOr]
    | none =>
      simp only [insLast, hIL, oOr]
      by_cases hsp : kv.1 ∈ sp
      · simp [hsp, oOr]
      · by_cases hk : kv.1 = k
        · subst hk
          simp [hsp, lookupA_insertA_self, oOr]
        · simp [hsp, hk, lookupA_insertA_ne _ _ _ _ hk, oOr]

theorem mem_insFold (f : List (String × UTXO)) (sp : List String)
    (led : List (String × UTXO)) (kv : String × UTXO)
    (h : kv ∈ insFold f sp led) : kv ∈ led ∨ kv ∈ f := by
  induction f generalizing led with
  | nil => left; exact h
  | cons kv1 rest ih =>
    have hstep : insFold (kv1 :: rest) sp led
        = insFold rest sp (if kv1.1 ∈ sp then led else insertA led kv1.1 kv1.2) := rfl
    rw [hstep] at h
    rcases ih _ h with h1 | h1
    · by_cases hsp : kv1.1 ∈ sp
      · simp [hsp] at h1; left; exact h1
      · simp [hsp] at h1
        rcases mem_insertA _ _ _ _ h1 with h2 | h2
        · left; exact h2
        · right; simp [h2]
    · right; exact List.mem_cons_of_mem _ h1

theorem lookupA_applyScan (f : List (String × UTXO)) (sp : List String)
    (led : List (String × UTXO)) (k : String) :
    lookupA (applyScan f sp led) k
      = if k ∈ sp then none else oOr (insLast f sp k) (lookupA led k) := by
  rw [applyScan, lookupA_eraseAll, lookupA_insFold]

theorem mem_applyScan (f : List (String × UTXO)) (sp : List String)
    (led : List (String × UTXO)) (kv : String × UTXO)
    (h : kv ∈ applyScan f sp led) : kv ∈ led ∨ kv ∈ f :=
  mem_insFold _ _ _ _ (mem_eraseAll _ _ _ h)

/-! ## Fold invariants and well-formedness of the scan result -/

theorem foldl_inv {α β : Type} (P : α → Prop) (f : α → β → α)
    (hstep : ∀ acc x, P acc → P (f acc x)) :
    ∀ (l : List β) (a : α), P a → P (l.foldl f a) := by
  intro l
  induction l with
  | nil => intro a ha; exact ha
  | cons x rest ih => intro a ha; exact ih _ (hstep a x ha)

theorem wf_scanTx (s2a : List (String × String)) (h : Int) (acc : ScanAcc)
    (tx : Tx) (hwf : WFLedger acc.found) :
    WFLedger (scanTx s2a h acc tx).found := by
  simp only [scanTx]
  apply foldl_inv (fun fd => WFLedger fd)
  · intro fd p hfd
    cases hl : lookupA s2a p.2.pkScript with
    | none => simpa [hl] using hfd
    | some addrStr =>
      simp only [hl]
      intro kv hkv
      rcases mem_insertA _ _ _ _ hkv with h1 | h1
      · exact hfd kv h1
      · subst h1; rfl
  · exact hwf

theorem wf_scanHeightT (env : Env) (scripts : List String)
    (s2a : List (String × String)) (acc : ScanAcc) (h : Int)
    (hwf : WFLedger acc.found) :
    WFLedger ((scanHeightT env scripts s2a acc h).1).found := by
  cases hbh : env.getBlockHash h with
  | none => simpa [scanHeightT, hbh] using hwf
  | some bh =>
    cases hcf : env.getCFilter bh with
    | none => simpa [scanHeightT, hbh, hcf] using hwf
    | some f =>
      cases hm : f.matchAnyRes scripts with
      | none => simpa [scanHeightT, hbh, hcf, hm] using hwf
      | some b =>
        cases b with
        | false => simpa [scanHeightT, hbh, hcf, hm] using hwf
        | true =>
          cases hblk : env.getBlock bh with
          | none => simpa [scanHeightT, hbh, hcf, hm, hblk] using hwf
          | some blk =>
            simp only [scanHeightT, hbh, hcf, hm, hblk]
            exact foldl_inv (fun a => WFLedger a.found) (scanTx s2a h)
              (fun a tx ha => wf_scanTx s2a h a tx ha) blk.txs acc hwf

theorem wf_scanHeightsT (env : Env) (scripts : List String)
    (s2a : List (String × String)) (hs : List Int) :
    ∀ acc, WFLedger acc.found →
      WFLedger ((scanHeightsT env scripts s2a acc hs).1).found := by
  induction hs with
  | nil => intro acc hwf; exact hwf
  | cons h rest ih =>
    intro acc hwf
    simp only [scanHeightsT]
    exact ih _ (wf_scanHeightT env scripts s2a acc h hwf)

theorem wf_scanResult (env : Env) (scripts : List String)
    (s2a : List (String × String)) (hs : List Int) :
    WFLedger (scanResult env scripts s2a hs).found := by
  apply wf_scanHeightsT
  intro kv hkv
  cases hkv

/-! ## Registration lemmas (WatchAddress / registerAll) -/

theorem watchAddress_utxoSet (env : Env) (st : RescanState) (a : String)
    (st1 : RescanState) (h : WatchAddress env st a = .ok st1) :
    st1.utxoSet = st.utxoSet := by
  by_cases h1 : a ∈ st.watched
  · simp [WatchAddress, h1] at h
    rw [← h]
  · by_cases h2 : env.decodeOk a
    · simp [WatchAddress, h1, h2] at h
      rw [← h]
    · simp [WatchAddress, h1, h2] at h

theorem watchAddress_mem (env : Env) (st : RescanState) (a : String)
    (st1 : RescanState) (h : WatchAddress env st a = .ok st1) :
    a ∈ st1.watched := by
  by_cases h1 : a ∈ st.watched
  · simp [WatchAddress, h1] at h
    rw [← h]; exact h1
  · by_cases h2 : env.decodeOk a
    · simp [WatchAddress, h1, h2] at h
      rw [← h]; exact List.mem_cons_self _ _
    · simp [WatchAddress, h1, h2] at h

theorem watchAddress_mono (env : Env) (st : RescanState) (a : String)
    (st1 : RescanState) (h : WatchAddress env st a = .ok st1) :
    ∀ x ∈ st.watched, x ∈ st1.watched := by
  intro x hx
  by_cases h1 : a ∈ st.watched
  · simp [WatchAddress, h1] at h
    rw [← h]; exact hx
  · by_cases h2 : env.decodeOk a
    · simp [WatchAddress, h1, h2] at h
      rw [← h]; exact List.mem_cons_of_mem _ hx
    · simp [WatchAddress, h1, h2] at h

theorem registerAll_utxoSet (env : Env) (l : List String) :
    ∀ st : RescanState, (registerAll env st l).2.utxoSet = st.utxoSet := by
  induction l with
  | nil => intro st; rfl
  | cons a rest ih =>
    intro st
    cases hw : WatchAddress env st a with
    | error e => simp [registerAll, hw]
    | ok st1 =>
      simp only [registerAll, hw]
      rw [ih st1, watchAddress_utxoSet env st a st1 hw]

theorem registerAll_mono (env : Env) (l : List String) :
    ∀ st : RescanState, ∀ x ∈ st.watched,
      x ∈ (registerAll env st l).2.watched := by
  induction l with
  | nil => intro st x hx; exact hx
  | cons a rest ih =>
    intro st x hx
    cases hw : WatchAddress env st a with
    | error e => simpa [registerAll, hw] using hx
    | ok st1 =>
      simp only [registerAll, hw]
      exact ih st1 x (watchAddress_mono env st a st1 hw x hx)

theorem registerAll_mem_of_ok (env : Env) (l : List String) :
    ∀ st : RescanState, (registerAll env st l).1 = .ok () →
      ∀ a ∈ l, a ∈ (registerAll env st l).2.watched := by
  induction l with
  | nil => intro st _ a ha; cases ha
  | cons b rest ih =>
    intro st hok a ha
    cases hw : WatchAddress env st b with
    | error e => simp [registerAll, hw] at hok
    | ok st1 =>
      simp only [registerAll, hw] at hok ⊢
      rcases List.mem_cons.mp ha with h1 | h1
      · subst h1
        exact registerAll_mono env rest st1 a (watchAddress_mem env st a st1 hw)
      · exact ih st1 hok a h1

theorem registerAll_append (env : Env) (l2 : List String) :
    ∀ (l1 : List String) (st st1 : RescanState),
      registerAll env st l1 = (.ok (), st1) →
      registerAll env st (l1 ++ l2) = registerAll env st1 l2 := by
  intro l1
  induction l1 with
  | nil =>
    intro st st1 h
    simp only [registerAll] at h
    rw [List.nil_append, (Prod.mk.injEq _ _ _ _).mp h |>.2]
  | cons a rest ih =>
    intro st st1 h
    cases hw : WatchAddress env st a with
    | error e => simp [registerAll, hw] at h
    | ok stm =>
      simp only [registerAll, hw] at h
      simp only [List.cons_append, registerAll, hw]
      exact ih stm st1 h

theorem registerAll_cons_error (env : Env) (st : RescanState) (a : String)
    (rest : List String) (hmem : a ∉ st.watched)
    (hdec : env.decodeOk a = false) :
    registerAll env st (a :: rest) = (.error (.invalidAddress a), st) := by
  simp [registerAll, WatchAddress, hmem, hdec]

/-! ## Per-height skip lemmas -/

theorem scanHeightT_skip (env : Env) (scripts : List String)
    (s2a : List (String × String)) (h : Int)
    (hskip : heightSkips env scripts h) :
    ∀ acc, (scanHeightT env scripts s2a acc h).1 = acc := by
  intro acc
  rcases hskip with hbh | ⟨bh, hbh, hcf | ⟨f, hcf, hm | ⟨hm, hblk⟩⟩⟩
  · simp [scanHeightT, hbh]
  · simp [scanHeightT, hbh, hcf]
  · simp [scanHeightT, hbh, hcf, hm]
  · simp [scanHeightT, hbh, hcf, hm, hblk]

theorem scanHeightsT_excise (env : Env) (scripts : List String)
    (s2a : List (String × String)) (h : Int) (hs2 : List Int)
    (hskip : heightSkips env scripts h) :
    ∀ (hs1 : List Int) (acc : ScanAcc),
      (scanHeightsT env scripts s2a acc (hs1 ++ h :: hs2)).1
        = (scanHeightsT env scripts s2a acc (hs1 ++ hs2)).1 := by
  intro hs1
  induction hs1 with
  | nil =>
    intro acc
    simp only [List.nil_append, scanHeightsT]
    rw [scanHeightT_skip env scripts s2a h hskip acc]
  | cons h1 t ih =>
    intro acc
    simp only [List.cons_append, scanHeightsT]
    exact ih _

/-! ## Point-lookup lemmas -/

theorem lookupTx_invalid_vout (target : String) (vout : Nat) (h : Int)
    (st : LookupState) (tx : Tx)
    (hlen : tx.txid = target → tx.outputs.length ≤ vout)
    (hnone : st.foundOuts = none) :
    lookupTx target vout h st tx = st := by
  unfold lookupTx
  have hcond : ¬ (st.foundOuts = none ∧ tx.txid = target
      ∧ vout < tx.outputs.length) := by
    rintro ⟨-, htxid, hlt⟩
    exact absurd hlt (Nat.not_lt.mpr (hlen htxid))
  rw [if_neg hcond]
  simp [hnone]

theorem lookupTxs_invalid_vout (target : String) (vout : Nat) (h : Int)
    (txs : List Tx)
    (hlen : ∀ tx ∈ txs, tx.txid = target → tx.outputs.length ≤ vout) :
    ∀ st : LookupState, st.foundOuts = none →
      txs.foldl (lookupTx target vout h) st = st := by
  induction txs with
  | nil => intro st _; rfl
  | cons tx rest ih =>
    intro st hnone
    have hstep := lookupTx_invalid_vout target vout h st tx
      (hlen tx (List.mem_cons_self _ _)) hnone
    simp only [List.foldl_cons, hstep]
    exact ih (fun t ht => hlen t (List.mem_cons_of_mem _ ht)) st hnone

theorem lookupHeightT_invalid_vout (env : Env) (pk target : String)
    (vout : Nat) (h : Int)
    (hv : ∀ bh b, env.getBlock bh = some b → ∀ tx ∈ b.txs,
      tx.txid = target → tx.outputs.length ≤ vout)
    (st : LookupState) (hnone : st.foundOuts = none) :
    (lookupHeightT env pk target vout st h).1 = st := by
  cases hbh : env.getBlockHash h with
  | none => simp [lookupHeightT, hbh]
  | some bh =>
    cases hcf : env.getCFilter bh with
    | none => simp [lookupHeightT, hbh, hcf]
    | some f =>
      cases hm : f.matchRes pk with
      | none => simp [lookupHeightT, hbh, hcf, hm]
      | some mb =>
        cases mb with
        | false => simp [lookupHeightT, hbh, hcf, hm]
        | true =>
          cases hblk : env.getBlock bh with
          | none => simp [lookupHeightT, hbh, hcf, hm, hblk]
          | some b =>
            simp only [lookupHeightT, hbh, hcf, hm, hblk]
            exact lookupTxs_invalid_vout target vout h b.txs
              (hv bh b hblk) st hnone

theorem lookupLoop_invalid_vout (env : Env) (pk target : String)
    (vout : Nat)
    (hv : ∀ bh b, env.getBlock bh = some b → ∀ tx ∈ b.txs,
      tx.txid = target → tx.outputs.length ≤ vout) :
    ∀ (hs : List Int) (st : LookupState), st.foundOuts = none →
      (lookupLoop env pk target vout st hs).1 = st := by
  intro hs
  induction hs with
  | nil => intro st _; rfl
  | cons h rest ih =>
    intro st hnone
    have hstep := lookupHeightT_invalid_vout env pk target vout h hv st hnone
    simp only [lookupLoop, hstep]
    simp only [bothFound, hnone, Option.isSome_none, Bool.false_and,
      if_false, Bool.false_eq_true]
    exact ih st hnone

/-! ## Claim theorems -/

/-- C5: Ledger application is idempotent — for every ledger state and
every `(created, spent)` pair, applying the pair twice yields the same
final UTXO set (pointwise, for every key) as applying it once. -/
theorem apply_idempotent (f : List (String × UTXO)) (sp : List String)
    (led : List (String × UTXO)) (k : String) :
    lookupA (applyScan f sp (applyScan f sp led)) k
      = lookupA (applyScan f sp led) k := by
  rw [lookupA_applyScan, lookupA_applyScan]
  by_cases hk : k ∈ sp
  · simp [hk]
  · cases hIL : insLast f sp k <;> simp [hk, hIL, oOr]

/-- C4: A point lookup with an empty address string fails with the
missing-address error before any interaction with the block/filter
source — for every environment and every txid, vout and start height,
the result is `missingAddress` and the fetch trace is empty. -/
theorem getutxo_missing_address (env : Env) (txid : String) (vout : Nat)
    (startH : Int) :
    GetUTXOTrace env txid vout "" startH = (.error .missingAddress, []) := by
  simp [GetUTXOTrace]

/-- C8: Address isolation of queries — whenever `GetUTXOs` succeeds,
every returned output has an owning address that is a member of the
queried address set. -/
theorem query_address_isolation (env : Env) (st : RescanState)
    (addrs : List String) (res : List UTXO) (st1 : RescanState)
    (h : GetUTXOs env st addrs = (.ok res, st1)) :
    ∀ u ∈ res, u.Address ∈ addrs := by
  intro u hu
  unfold GetUTXOs at h
  cases hreg : registerAll env st addrs with
  | mk r1 r2 =>
    rw [hreg] at h
    cases r1 with
    | error e => simp at h
    | ok uu =>
      simp only [Prod.mk.injEq, Except.ok.injEq] at h
      obtain ⟨h1, h2⟩ := h
      rw [← h1] at hu
      simp only [queryLedger, List.mem_filter] at hu
      simpa using hu.2

/-- C8 witness: a concrete successful query for address `A` returns
`uX`, whose owning address is in the queried set. -/
theorem query_address_isolation_witness :
    uX.Address ∈ ["A"] :=
  query_address_isolation envW stW ["A"] [uX] ⟨["A"], [("X:0", uX)]⟩ rfl uX
    (by decide)

/-- C10: Implicit registration in `GetUTXOs` is not rolled back — with
an invalid address in the list, the call fails with the invalid-address
error (returning no outputs), while every address registered before the
failure, in particular every valid address occurring earlier in the
list, remains in the watch list. -/
theorem getutxos_partial_registration (env : Env) (st : RescanState)
    (good : List String) (bad : String) (rest : List String)
    (st1 : RescanState)
    (hgood : registerAll env st good = (.ok (), st1))
    (hmem : bad ∉ st1.watched)
    (hbad : env.decodeOk bad = false) :
    GetUTXOs env st (good ++ bad :: rest)
        = (.error (.invalidAddress bad), st1) ∧
      ∀ a ∈ good, a ∈ st1.watched := by
  have happ := registerAll_append env (bad :: rest) good st st1 hgood
  have herr := registerAll_cons_error env st1 bad rest hmem hbad
  constructor
  · unfold GetUTXOs
    rw [happ, herr]
  · intro a ha
    have hm := registerAll_mem_of_ok env good st (by rw [hgood]) a ha
    rw [hgood] at hm
    exact hm

/-- C10 witness: querying `[A, Z]` with `Z` invalid fails with the
invalid-address error while `A` stays registered. -/
theorem getutxos_partial_registration_witness :
    GetUTXOs envW stEmpty ["A", "Z"]
        = (.error (.invalidAddress "Z"), ⟨["A"], []⟩) ∧
      "A" ∈ (⟨["A"], []⟩ : RescanState).watched := by
  have h := getutxos_partial_registration envW stEmpty ["A"] "Z" []
    ⟨["A"], []⟩ rfl (by decide) rfl
  exact ⟨h.1, h.2 "A" (by decide)⟩

/-- C2 counterexample: a rescan request over an empty address list —
whose watched-address set trivially resolves to an empty script set —
is not rejected with the no-scripts error: `Rescan` accepts it as a
successful no-op, leaving the ledger unchanged. -/
theorem rescan_empty_addrs_accepted :
    Rescan envW stEmpty 5 [] = (.ok (), stEmpty, []) := rfl

/-- C2 (amended): for a scan request with a non-empty address list
whose watched-address set resolves to a completely empty script set,
the scan is rejected up front with the no-scripts error before any
height is scanned (empty fetch trace) and the UTXO ledger is left
unchanged; a request with an empty address list is instead accepted as
a successful no-op, also scanning no height and leaving the ledger
unchanged. -/
theorem rescan_empty_scripts (env : Env) (st st1 : RescanState)
    (startH tip : Int) (addrs : List String)
    (hreg : registerAll env st addrs = (.ok (), st1))
    (htip : env.bestBlock = some tip)
    (hscr : (buildScripts env addrs).1 = []) :
    (addrs = [] → Rescan env st startH addrs = (.ok (), st1, [])) ∧
    (addrs ≠ [] → Rescan env st startH addrs = (.error .noScripts, st1, [])) ∧
    st1.utxoSet = st.utxoSet := by
  refine ⟨?_, ?_, ?_⟩
  · intro he
    unfold Rescan
    rw [hreg]
    simp [he]
  · intro hne
    unfold Rescan
    rw [hreg]
    simp only [hne, if_false]
    rw [htip]
    simp [scanBlocks, hscr]
  · have := registerAll_utxoSet env addrs st
    rw [hreg] at this
    exact this

/-- C2 witness for the amended claim: address `C` decodes but its
script construction fails, so the resulting script set is empty and
the rescan is rejected with the no-scripts error without scanning. -/
theorem rescan_empty_scripts_witness :
    Rescan envW stEmpty 5 ["C"] = (.error .noScripts, ⟨["C"], []⟩, []) :=
  (rescan_empty_scripts envW stEmpty ⟨["C"], []⟩ 5 2 ["C"] rfl rfl rfl).2.1
    (by simp)

/-- C1: Same-range net-zero — any outpoint key that appears in both the
created map and the spent set of one scan is absent from the UTXO
ledger after the ledger update is applied, and no output returned by a
subsequent query, for any address set, carries that outpoint. -/
theorem scan_same_range_net_zero (env : Env) (scripts : List String)
    (s2a : List (String × String)) (hs : List Int)
    (led : List (String × UTXO)) (k : String)
    (hwf : WFLedger led)
    (_hc : k ∈ (scanResult env scripts s2a hs).found.map Prod.fst)
    (hsp : k ∈ (scanResult env scripts s2a hs).spent) :
    lookupA (applyScan (scanResult env scripts s2a hs).found
        (scanResult env scripts s2a hs).spent led) k = none ∧
    ∀ (addrs : List String) (u : UTXO),
      u ∈ queryLedger (applyScan (scanResult env scripts s2a hs).found
          (scanResult env scripts s2a hs).spent led) addrs →
      utxoKey u.TxID u.Vout ≠ k := by
  have h1 : lookupA (applyScan (scanResult env scripts s2a hs).found
      (scanResult env scripts s2a hs).spent led) k = none := by
    rw [lookupA_applyScan]
    simp [hsp]
  refine ⟨h1, ?_⟩
  intro addrs u hu
  have hwf2 : WFLedger (applyScan (scanResult env scripts s2a hs).found
      (scanResult env scripts s2a hs).spent led) := by
    intro kv hkv
    rcases mem_applyScan _ _ _ _ hkv with h2 | h2
    · exact hwf kv h2
    · exact wf_scanResult env scripts s2a hs kv h2
  simp only [queryLedger, List.mem_filter, List.mem_map] at hu
  obtain ⟨⟨kv, hkvmem, hkv2⟩, _⟩ := hu
  have hkey := hwf2 kv hkvmem
  have hnotin := (lookupA_eq_none _ k).mp h1 kv hkvmem
  rw [hkv2] at hkey
  intro hcon
  exact hnotin (by rw [hkey, hcon])

/-- C1 witness: on the fixture chain, outpoint `T:0` is created at
height 0 and spent at height 2 within the same scan, and is absent from
the ledger after the update is applied. -/
theorem scan_same_range_net_zero_witness :
    lookupA (applyScan (scanResult envW ["SA"] [("SA", "A")] [0, 1, 2]).found
        (scanResult envW ["SA"] [("SA", "A")] [0, 1, 2]).spent []) "T:0"
      = none :=
  (scan_same_range_net_zero envW ["SA"] [("SA", "A")] [0, 1, 2] [] "T:0"
    (by intro kv hkv; cases hkv) (by decide) (by decide)).1

/-- C7: Per-height failures never abort a scan — a height at which the
block hash, filter or full block fetch fails (or the filter is absent)
leaves the scan accumulator unchanged, the scan over a range containing
such a height produces the same accumulated result as the scan with the
height removed, and `scanBlocks` never propagates an error to the
caller whenever the script set is non-empty. -/
theorem scan_height_failures_nonfatal (env : Env) (scripts : List String)
    (s2a : List (String × String)) (h : Int) (hs1 hs2 : List Int)
    (acc : ScanAcc) (hskip : heightSkips env scripts h) :
    (scanHeightT env scripts s2a acc h).1 = acc ∧
    (scanHeightsT env scripts s2a acc (hs1 ++ h :: hs2)).1
      = (scanHeightsT env scripts s2a acc (hs1 ++ hs2)).1 ∧
    ∀ (env2 : Env) (st : RescanState) (startH endH : Int)
      (addrs : List String), (buildScripts env2 addrs).1 ≠ [] →
      (scanBlocks env2 st startH endH addrs).1 = .ok () := by
  refine ⟨scanHeightT_skip env scripts s2a h hskip acc,
    scanHeightsT_excise env scripts s2a h hs2 hskip hs1 acc, ?_⟩
  intro env2 st startH endH addrs hne
  simp [scanBlocks, hne]

/-- C7 witness: height 1 of the fixture chain has no block hash; the
scan over heights 0,1,2 accumulates exactly what the scan over 0,2
does. -/
theorem scan_height_failures_nonfatal_witness :
    heightSkips envW ["SA"] 1 ∧
    (scanHeightsT envW ["SA"] [("SA", "A")] ⟨[], []⟩ [0, 1, 2]).1
      = (scanHeightsT envW ["SA"] [("SA", "A")] ⟨[], []⟩ [0, 2]).1 :=
  ⟨Or.inl rfl,
   (scan_height_failures_nonfatal envW ["SA"] [("SA", "A")] 1 [0] [2]
      ⟨[], []⟩ (Or.inl rfl)).2.1⟩

/-- C6: The point-lookup scan terminates early — if after processing
the heights `hs1 ++ [h]` both the creation and the spend of the target
outpoint have been found, the loop over `hs1 ++ h :: hs2` is identical
(final state and fetch trace) to the loop stopped at `h`: no height
after `h` is scanned and no further fetch occurs. -/
theorem getutxo_early_termination (env : Env) (pk target : String)
    (vout : Nat) (hs1 : List Int) (h : Int) (hs2 : List Int)
    (st0 : LookupState)
    (hdone : bothFound (lookupRun env pk target vout st0 (hs1 ++ [h])) = true) :
    lookupLoop env pk target vout st0 (hs1 ++ h :: hs2)
      = lookupLoop env pk target vout st0 (hs1 ++ [h]) := by
  revert st0
  induction hs1 with
  | nil =>
    intro st0 hdone
    simp only [List.nil_append] at hdone ⊢
    simp only [lookupRun] at hdone
    simp only [lookupLoop, hdone, if_true]
  | cons h1 t ih =>
    intro st0 hdone
    simp only [List.cons_append] at hdone ⊢
    simp only [lookupRun] at hdone
    simp only [lookupLoop]
    cases hb : bothFound (lookupHeightT env pk target vout st0 h1).1 with
    | true => simp [hb]
    | false =>
      simp only [hb, Bool.false_eq_true, if_false]
      rw [ih _ hdone]

/-- C6 witness: on the fixture chain the creation is found at height 0
and the spend at height 2; the loop over heights 0,2,3 is identical to
the loop stopped at height 2. -/
theorem getutxo_early_termination_witness :
    bothFound (lookupRun envW "SA" "T" 0 {} [0, 2]) = true ∧
    lookupLoop envW "SA" "T" 0 {} [0, 2, 3]
      = lookupLoop envW "SA" "T" 0 {} [0, 2] :=
  ⟨by decide,
   getutxo_early_termination envW "SA" "T" 0 [0] 2 [3] {} (by decide)⟩

/-- C3: Point-lookup result trichotomy — for every lookup that passes
input validation, exactly one of three results is produced from the
final loop state: creation never found fails with the not-found error
whose message hints that the start height may be after the creating
block; creation and spend found reports spent with the captured
spending transaction id, input index and height and zero value/script
fields; creation without spend reports unspent with the value and
script observed at creation and zero spending fields — never both
sets of fields. -/
theorem getutxo_result_trichotomy (env : Env) (txid : String) (vout : Nat)
    (address : String) (startH : Int) (pk target : String) (tip : Int)
    (st : LookupState)
    (haddr : address ≠ "")
    (hdec : env.decodeOk address = true)
    (hpk : env.payScript address = some pk)
    (htx : env.parseTxid txid = some target)
    (htip : env.bestBlock = some tip)
    (hst : (lookupScan env pk target vout startH tip).1 = st) :
    (st.foundOuts = none →
      GetUTXO env txid vout address startH
        = .error (.notFound notFoundHint)) ∧
    (∀ outs, st.foundOuts = some outs → st.spendingTx ≠ "" →
      GetUTXO env txid vout address startH
        = .ok { unspent := false, value := 0, scriptPubKey := "",
                spendingTxID := st.spendingTx,
                spendingInput := st.spendingInput,
                spendingHeight := st.spendingHeight }) ∧
    (∀ outs, st.foundOuts = some outs → st.spendingTx = "" →
      GetUTXO env txid vout address startH
        = .ok { unspent := true,
                value := (outs.getD vout ⟨0, ""⟩).value,
                scriptPubKey := (outs.getD vout ⟨0, ""⟩).pkScript,
                spendingTxID := "", spendingInput := 0,
                spendingHeight := 0 }) := by
  have hmain : GetUTXO env txid vout address startH = buildReport vout st := by
    simp [GetUTXO, GetUTXOTrace, haddr, hdec, hpk, htx, htip, hst]
  refine ⟨?_, ?_, ?_⟩
  · intro hnone
    rw [hmain]
    simp [buildReport, hnone]
  · intro outs hsome hne
    rw [hmain]
    simp [buildReport, hsome, hne]
  · intro outs hsome heq
    rw [hmain]
    simp [buildReport, hsome, heq]

/-- C3 witness: looking up outpoint `(T, 0)` for address `A` from
height 0 on the fixture chain reports spent by transaction `U`, input
0, height 2, with zero value/script fields. -/
theorem getutxo_result_trichotomy_witness :
    GetUTXO envW "T" 0 "A" 0
      = .ok { unspent := false, value := 0, scriptPubKey := "",
              spendingTxID := "U", spendingInput := 0,
              spendingHeight := 2 } :=
  (getutxo_result_trichotomy envW "T" 0 "A" 0 "SA" "T" 2
      ⟨some [⟨5000, "SA"⟩], 0, "U", 0, 2⟩
      (by decide) rfl rfl rfl rfl (by decide)).2.1
    [⟨5000, "SA"⟩] rfl (by decide)

/-- C9: An observed transaction with the target txid but an
out-of-range vout never sets creation-found — when every transaction
with the target id served by the chain has at most `vout` outputs, the
loop state keeps `foundOuts = none` and the lookup fails with the same
not-found error (same message) as when the transaction was never
observed at all. -/
theorem getutxo_invalid_vout (env : Env) (txid : String) (vout : Nat)
    (address : String) (startH : Int) (pk target : String) (tip : Int)
    (haddr : address ≠ "")
    (hdec : env.decodeOk address = true)
    (hpk : env.payScript address = some pk)
    (htx : env.parseTxid txid = some target)
    (htip : env.bestBlock = some tip)
    (hv : ∀ bh b, env.getBlock bh = some b → ∀ tx ∈ b.txs,
      tx.txid = target → tx.outputs.length ≤ vout) :
    (lookupScan env pk target vout startH tip).1.foundOuts = none ∧
    GetUTXO env txid vout address startH
      = .error (.notFound notFoundHint) := by
  have hloop : (lookupScan env pk target vout startH tip).1 = {} := by
    unfold lookupScan
    exact lookupLoop_invalid_vout env pk target vout hv _ {} rfl
  constructor
  · rw [hloop]
  · simp [GetUTXO, GetUTXOTrace, haddr, hdec, hpk, htx, htip, hloop,
      buildReport]

/-- C9 witness: the fixture transaction `T` has a single output, so
looking up vout 5 fails with the not-found error even though `T` is
observed at height 0. -/
theorem getutxo_invalid_vout_witness :
    GetUTXO envW "T" 5 "A" 0 = .error (.notFound notFoundHint) := by
  have hv : ∀ bh b, envW.getBlock bh = some b → ∀ tx ∈ b.txs,
      tx.txid = "T" → tx.outputs.length ≤ 5 := by
    intro bh b hb tx htx htxid
    simp only [envW] at hb
    split at hb
    · injection hb with hb
      subst hb
      simp only [blk0] at htx
      have h1 : tx = txT := List.mem_singleton.mp htx
      subst h1
      decide
    · split at hb
      · injection hb with hb
        subst hb
        simp only [blk2] at htx
        have h1 : tx = txU := List.mem_singleton.mp htx
        subst h1
        exact absurd htxid (by decide)
      · cases hb
  exact (getutxo_invalid_vout envW "T" 5 "A" 0 "SA" "T" 2
    (by decide) rfl rfl rfl rfl hv).2

end NeutrinoAPI
